import Mathlib

/-!
Verification development for the performance polar-area assessment
application.  The definitions below are shallow embeddings of the
JavaScript source: the client logic of `script.js` (input clamping, CSV
export/import, localStorage handling, the MongoDB autosave policy), the
server-side validation of `backend/middleware/validation.js`, the
Mongoose assessment model of the backend, and the REST controllers
(`updateAssessment`, `importFromCSV`).  JavaScript strings are modelled
as Lean `String` (a wrapper around `List Char`); JS numbers reaching the
scoring logic are modelled as exact rationals; built-in string methods
(`trim`, `split`, `toLowerCase`, `includes`, `parseFloat`, `parseInt`)
are given explicit executable models.
-/

/-! ## JavaScript string built-ins, modelled on `List Char` -/

/-- Model of `String.prototype.trim`: drop whitespace from both ends. -/
def jsTrim (l : List Char) : List Char :=
  ((l.dropWhile Char.isWhitespace).reverse.dropWhile Char.isWhitespace).reverse

/-- `jsTrim` lifted to `String`. -/
def jsTrimS (s : String) : String :=
  String.mk (jsTrim s.data)

/-- Model of `String.prototype.split(sep)` for a one-character separator:
`"a,b".split(',') = ["a","b"]`, `"".split(',') = [""]`. -/
def splitOnChar (sep : Char) : List Char → List (List Char)
  | [] => [[]]
  | c :: cs =>
    if c = sep then [] :: splitOnChar sep cs
    else
      match splitOnChar sep cs with
      | [] => [[c]]
      | h :: t => (c :: h) :: t

/-- Model of `String.prototype.includes`: `needle` occurs as a contiguous
substring of `hay`. -/
def containsSub (hay needle : List Char) : Bool :=
  hay.tails.any (fun t => needle.isPrefixOf t)

/-- Decimal digits to a natural number, most significant first. -/
def digitsToNat (ds : List Char) : Nat :=
  ds.foldl (fun acc c => acc * 10 + (c.toNat - '0'.toNat)) 0

/-- Scaled-integer core of JS `parseFloat`: returns `(n, k)` such that the
parsed value is `n / 10 ^ k`, or `none` when the result is `NaN`.
Parses optional sign, integer digits and an optional decimal fraction,
ignoring any trailing garbage, as `parseFloat` does. -/
def parseFloatParts (s : String) : Option (ℤ × ℕ) :=
  let cs := s.data.dropWhile Char.isWhitespace
  let sgn : Bool × List Char :=
    match cs with
    | '-' :: rest => (true, rest)
    | '+' :: rest => (false, rest)
    | _ => (false, cs)
  let intPart := sgn.2.takeWhile Char.isDigit
  let rest := sgn.2.dropWhile Char.isDigit
  let fracPart :=
    match rest with
    | '.' :: r => r.takeWhile Char.isDigit
    | _ => []
  if intPart = [] ∧ fracPart = [] then none
  else
    let mag : ℤ := (digitsToNat intPart : ℤ) * 10 ^ fracPart.length + (digitsToNat fracPart : ℤ)
    some (if sgn.1 then -mag else mag, fracPart.length)

/-- Model of JS `parseFloat` as an exact rational (`none` = `NaN`). -/
def parseFloatQ (s : String) : Option ℚ :=
  (parseFloatParts s).map (fun p => (p.1 : ℚ) / (10 : ℚ) ^ p.2)

/-- Model of JS `parseInt` in base 10 (`none` = `NaN`): optional sign then
leading decimal digits, ignoring trailing garbage. -/
def parseIntJS (s : String) : Option ℤ :=
  let cs := s.data.dropWhile Char.isWhitespace
  let sgn : Bool × List Char :=
    match cs with
    | '-' :: rest => (true, rest)
    | '+' :: rest => (false, rest)
    | _ => (false, cs)
  let digits := sgn.2.takeWhile Char.isDigit
  if digits = [] then none
  else some (if sgn.1 then -(digitsToNat digits : ℤ) else (digitsToNat digits : ℤ))

/-! ## Schema Registry (`ASSESSMENT_CONFIG` of `config.js`) -/

/-- The four themes with their ordered metric identifiers, exactly as in
`ASSESSMENT_CONFIG.themes`. -/
def themesConfig : List (String × List String) :=
  [("Strategic Vision",
     ["sharedVision", "strategy", "businessAlignment", "customerFocus"]),
   ("Focus and Engagement",
     ["crossFunctionalTeams", "clarityInPriorities", "acceptanceCriteria",
      "enablingFocus", "engagement"]),
   ("Autonomy and Change",
     ["feedback", "enablingAutonomy", "changeAndAmbiguity", "desiredCulture",
      "workAutonomously"]),
   ("Stakeholders and Team",
     ["stakeholders", "teamAttrition", "teams", "developingPeople",
      "subordinatesForSuccess"])]

/-- All 19 metric identifiers in configuration order (the iteration order of
`Object.values(this.themes)` followed by `themeData.metrics`). -/
def validMetricIds : List String :=
  (themesConfig.map (fun t => t.2)).flatten

/-- `ASSESSMENT_CONFIG.ratingScale.min`. -/
def ratingMin : ℚ := 0

/-- `ASSESSMENT_CONFIG.ratingScale.max`. -/
def ratingMax : ℚ := 5

/-! ## Client-side clamping (`validateInput` of `script.js`) -/

/-- `validateInput(value)`: `parseFloat` the raw value, `0` on `NaN`,
otherwise clamp into `[ratingMin, ratingMax]` via `Math.max`/`Math.min`. -/
def validateInput (value : String) : ℚ :=
  match parseFloatQ value with
  | none => 0
  | some num => max ratingMin (min ratingMax num)

/-- `validateInput` applied to the second CSV cell, which may be absent
(`undefined`); `parseFloat(undefined)` is `NaN`, hence `0`. -/
def validateInputOpt : Option String → ℚ
  | none => 0
  | some s => validateInput s

/-! ## CSV export (`saveToCSV` of `script.js`) -/

/-- The body of the exported CSV: one `metricId,rating` line per form
entry, in form (configuration) order, each terminated by a newline —
the loop `csvContent += key + "," + value + "\n"`. -/
def csvBody (r : String → ℤ) : List String → String
  | [] => ""
  | id :: rest => id ++ "," ++ toString (r id) ++ "\n" ++ csvBody r rest

/-- `saveToCSV` content for a record whose form holds the integer rating
`r id` for each metric: the literal header line then the body. -/
def saveToCSVContent (r : String → ℤ) : String :=
  "Categories,Ratings\n" ++ csvBody r validMetricIds

/-! ## CSV import (`parseAndLoadCSV` of `script.js`) -/

/-- The three failure modes of `parseAndLoadCSV`, in the order the source
raises them: fewer than two lines, a header missing the required tokens,
and no recognized data row. -/
inductive ImportError
  | emptyOrInvalid
  | invalidFormat
  | noValidData
  deriving DecidableEq, Repr

/-- Outcome of one data row of the import loop: blank line (skipped),
unrecognized category (skipped with a `console.warn`), or a loaded
`(category, clamped value)` pair. -/
inductive RowResult
  | blank
  | unknown (category : String)
  | loaded (category : String) (value : ℚ)
  deriving DecidableEq, Repr

/-- One iteration of the data-row loop: trim the line, skip it when blank,
split on commas, trim the cells, skip unrecognized first cells, otherwise
clamp the second cell via `validateInput`. -/
def processRow (line : List Char) : RowResult :=
  let t := jsTrim line
  if t = [] then .blank
  else
    let parts := (splitOnChar ',' t).map jsTrim
    let category := String.mk (parts.headD [])
    if category ∈ validMetricIds then
      .loaded category (validateInputOpt ((parts[1]?).map String.mk))
    else .unknown category

/-- The `(category, value)` pairs written into the form, in row order. -/
def loadedRows (rows : List (List Char)) : List (String × ℚ) :=
  rows.filterMap (fun l =>
    match processRow l with
    | .loaded c v => some (c, v)
    | _ => none)

/-- Number of `console.warn` calls: one per unrecognized category row. -/
def warningsCount (rows : List (List Char)) : ℕ :=
  rows.countP (fun l =>
    match processRow l with
    | .unknown _ => true
    | _ => false)

/-- Header validation: the lowercased first line must contain both the
`categories` and the `ratings` token. -/
def headerOK (lines : List (List Char)) : Bool :=
  let header := (lines.headD []).map Char.toLower
  containsSub header "categories".data && containsSub header "ratings".data

/-- `parseAndLoadCSV(csvContent)`: trim, split into lines, require at least
two lines, validate the header, run the row loop, and fail when nothing
was loaded.  A thrown `Error` is modelled as `Except.error`. -/
def parseAndLoadCSV (csv : String) : Except ImportError (List (String × ℚ)) :=
  let lines := splitOnChar '\n' (jsTrim csv.data)
  if lines.length < 2 then .error .emptyOrInvalid
  else if headerOK lines then
    let loaded := loadedRows (lines.drop 1)
    if loaded.length = 0 then .error .noValidData else .ok loaded
  else .error .invalidFormat

/-! ## Mongoose assessment model (`models/Assessment.js`) -/

/-- The 19 metric fields of the assessment schema, in declaration order.
The schema type is `Number`; the rationals here carry arbitrary numbers,
with integrality imposed by the validation layer. -/
structure Metrics where
  sharedVision : ℚ
  strategy : ℚ
  businessAlignment : ℚ
  customerFocus : ℚ
  crossFunctionalTeams : ℚ
  clarityInPriorities : ℚ
  acceptanceCriteria : ℚ
  enablingFocus : ℚ
  engagement : ℚ
  feedback : ℚ
  enablingAutonomy : ℚ
  changeAndAmbiguity : ℚ
  desiredCulture : ℚ
  workAutonomously : ℚ
  stakeholders : ℚ
  teamAttrition : ℚ
  teams : ℚ
  developingPeople : ℚ
  subordinatesForSuccess : ℚ
  deriving DecidableEq, Repr

/-- `Object.values(this.metrics)` — the 19 ratings in schema order. -/
def objectValuesMetrics (m : Metrics) : List ℚ :=
  [m.sharedVision, m.strategy, m.businessAlignment, m.customerFocus,
   m.crossFunctionalTeams, m.clarityInPriorities, m.acceptanceCriteria,
   m.enablingFocus, m.engagement,
   m.feedback, m.enablingAutonomy, m.changeAndAmbiguity, m.desiredCulture,
   m.workAutonomously,
   m.stakeholders, m.teamAttrition, m.teams, m.developingPeople,
   m.subordinatesForSuccess]

/-- Result record of `calculateThemeAverages`. -/
structure ThemeAverages where
  strategicVision : ℚ
  focusAndEngagement : ℚ
  autonomyAndChange : ℚ
  stakeholdersAndTeam : ℚ
  deriving DecidableEq, Repr

/-- `assessmentSchema.methods.calculateThemeAverages`: per-theme sums
divided by the theme sizes 4, 5, 5, 5. -/
def calculateThemeAverages (m : Metrics) : ThemeAverages :=
  { strategicVision :=
      (m.sharedVision + m.strategy + m.businessAlignment + m.customerFocus) / 4,
    focusAndEngagement :=
      (m.crossFunctionalTeams + m.clarityInPriorities + m.acceptanceCriteria +
       m.enablingFocus + m.engagement) / 5,
    autonomyAndChange :=
      (m.feedback + m.enablingAutonomy + m.changeAndAmbiguity +
       m.desiredCulture + m.workAutonomously) / 5,
    stakeholdersAndTeam :=
      (m.stakeholders + m.teamAttrition + m.teams + m.developingPeople +
       m.subordinatesForSuccess) / 5 }

/-- `assessmentSchema.methods.calculateOverallAverage`: the sum of
`Object.values(metrics)` divided by its length. -/
def calculateOverallAverage (m : Metrics) : ℚ :=
  (objectValuesMetrics m).foldl (· + ·) 0 / ((objectValuesMetrics m).length : ℚ)

/-! ## Server-side validation (`middleware/validation.js` and
`importFromCSV` of the assessment controller) -/

/-- The `requiredMetrics` list of `importFromCSV`, identical to the 19
`body('metrics.…')` rules of `validateAssessment`, in source order. -/
def requiredMetrics : List String :=
  ["sharedVision", "strategy", "businessAlignment", "customerFocus",
   "crossFunctionalTeams", "clarityInPriorities", "acceptanceCriteria",
   "enablingFocus", "engagement",
   "feedback", "enablingAutonomy", "changeAndAmbiguity", "desiredCulture",
   "workAutonomously",
   "stakeholders", "teamAttrition", "teams", "developingPeople",
   "subordinatesForSuccess"]

/-- `.isInt({ min: 0, max: 5 })` applied to an optional submitted value:
present, integral, and inside `[0, 5]`. -/
def isValidServerRating : Option ℚ → Bool
  | none => false
  | some q => q.den == 1 && decide (0 ≤ q) && decide (q ≤ 5)

/-- The fields reported by `handleValidationErrors` for the 19 metric
rules of `validateAssessment`: every identifier whose value fails
`.isInt({ min: 0, max: 5 })`, in rule order. -/
def validateAssessmentMetricErrors (m : String → Option ℚ) : List String :=
  requiredMetrics.filter (fun id => !(isValidServerRating (m id)))

/-- `validateAssessment` + `handleValidationErrors` on the metrics part of
a submission: pass the request through unchanged, or reject with the
failing fields. -/
def validateAssessmentMetrics (m : String → Option ℚ) :
    Except (List String) (String → Option ℚ) :=
  if validateAssessmentMetricErrors m = [] then .ok m
  else .error (validateAssessmentMetricErrors m)

/-- The `missingMetrics` computation of `importFromCSV`:
`requiredMetrics.filter(metric => metrics[metric] === undefined)`. -/
def missingMetricsOf (m : String → Option ℤ) : List String :=
  requiredMetrics.filter (fun id => (m id).isNone)

/-- The per-row rating check of `importFromCSV`: `parseInt(rating)`, and
reject (push an error, skip the row) when `NaN`, below 0 or above 5 —
no clamping at the persistence boundary. -/
def csvRowRating (rating : String) : Option ℤ :=
  match parseIntJS rating with
  | none => none
  | some v => if v < 0 ∨ 5 < v then none else some v

/-! ## Remote store records and partial update (`assessmentController.js`) -/

/-- A persisted assessment document: owner, subject, date and metric map. -/
structure AssessmentRec where
  userId : ℕ
  employeeName : String
  assessmentDate : String
  metrics : List (String × ℤ)
  deriving DecidableEq, Repr

/-- The request body of `PUT /api/assessments/:id`: each field optional,
`none` standing for `undefined` (field absent). -/
structure UpdateFields where
  employeeName : Option String
  assessmentDate : Option String
  metrics : Option (List (String × ℤ))
  deriving DecidableEq, Repr

/-- The per-user collection, keyed by document id. -/
abbrev AssessmentStore := List (ℕ × AssessmentRec)

/-- `Assessment.findOne({ _id: id, userId: uid })`. -/
def findOneOwned (store : AssessmentStore) (id uid : ℕ) : Option AssessmentRec :=
  (store.find? (fun e => e.1 == id && e.2.userId == uid)).map (fun e => e.2)

/-- The three `if (x !== undefined) assessment.x = x` statements of
`updateAssessment`. -/
def applyUpdateFields (a : AssessmentRec) (u : UpdateFields) : AssessmentRec :=
  { a with
    employeeName := u.employeeName.getD a.employeeName,
    assessmentDate := u.assessmentDate.getD a.assessmentDate,
    metrics := u.metrics.getD a.metrics }

/-- `updateAssessment`: owner-scoped lookup, 404 when absent, otherwise
apply the supplied fields and save the document back. -/
def updateAssessment (store : AssessmentStore) (uid id : ℕ) (u : UpdateFields) :
    Except String (AssessmentStore × AssessmentRec) :=
  match findOneOwned store id uid with
  | none => .error "Assessment not found"
  | some a =>
    let b := applyUpdateFields a u
    .ok (store.map (fun e => if e.1 == id && e.2.userId == uid then (e.1, b) else e), b)

/-! ## Filename sanitization (`sanitizeFilename` and `saveToCSV`) -/

/-- Characters kept by the regex class `[a-z0-9_-]` with the `i` flag. -/
def isFilenameChar (c : Char) : Bool :=
  ('a' ≤ c && c ≤ 'z') || ('A' ≤ c && c ≤ 'Z') || ('0' ≤ c && c ≤ '9') ||
  c == '_' || c == '-'

/-- `.replace(/[^a-z0-9_-]/gi, '_')` on one character. -/
def replaceChar (c : Char) : Char :=
  if isFilenameChar c then c else '_'

/-- `.replace(/_{2,}/g, '_')`: collapse every run of two or more
underscores into a single one. -/
def collapseUnderscores : List Char → List Char
  | [] => []
  | [c] => [c]
  | a :: b :: rest =>
    if a = '_' ∧ b = '_' then collapseUnderscores (b :: rest)
    else a :: collapseUnderscores (b :: rest)

/-- `sanitizeFilename(name)`: trim, replace disallowed characters with
underscores, collapse repeated underscores, truncate to 50 characters. -/
def sanitizeFilename (name : String) : String :=
  String.mk ((collapseUnderscores ((jsTrim name.data).map replaceChar)).take 50)

/-- Modelled from the spec: the sanitization exactly as the claim words it
— replace every character outside the class, collapse repeated
underscores, truncate to 50 — with no trimming step.  Used only to
compare the claimed filename law against the source. -/
def sanitizeFilenameSpec (name : String) : String :=
  String.mk ((collapseUnderscores (name.data.map replaceChar)).take 50)

/-- The download filename built in `saveToCSV`:
`{sanitizedName|"user"}_assessment_{dateStr}.csv`, where the sanitized
name is used only when `this.employeeName` is truthy (non-empty). -/
def csvFilename (employeeName dateStr : String) : String :=
  (if employeeName = "" then "user" else sanitizeFilename employeeName) ++
    "_assessment_" ++ dateStr ++ ".csv"

/-! ## Local cache and sync policy (`saveToLocalStorage`, `saveToMongoDB`,
`clearAll`, `newAssessment` of `script.js`) -/

/-- The JSON object stored under the `performanceAssessment` key by
`saveToLocalStorage`: the subject name and the raw value of every
number input. -/
structure LocalData where
  employeeName : String
  formData : List (String × String)
  deriving DecidableEq, Repr

/-- `saveToLocalStorage` payload for the current name and form state;
the form holds all 19 metric inputs. -/
def localDataOf (employeeName : String) (form : String → String) : LocalData :=
  { employeeName := employeeName,
    formData := validMetricIds.map (fun id => (id, form id)) }

/-- User-visible notifications (`showSuccessMessage` / `showErrorMessage`). -/
inductive Msg
  | success (text : String)
  | error (text : String)
  deriving DecidableEq, Repr

/-- `collectFormData()`: every configured metric mapped to
`parseInt(input.value) || 0`. -/
def collectFormData (form : String → String) : List (String × ℤ) :=
  validMetricIds.map (fun id => (id, (parseIntJS (form id)).getD 0))

/-- The request body sent to the remote store by the autosave. -/
structure Payload where
  employeeName : String
  assessmentDate : String
  metrics : List (String × ℤ)
  deriving DecidableEq, Repr

/-- The two remote-store writes the sync policy can issue. -/
inductive RemoteReq
  | create (p : Payload)
  | update (id : ℕ) (p : Payload)
  deriving DecidableEq, Repr

/-- The `data` object built in `saveToMongoDB`: trimmed subject name with
the `"Unknown"` default, the current ISO date, and the collected metric
mapping. -/
def payloadOf (nameValue : String) (form : String → String) (now : String) : Payload :=
  { employeeName := if jsTrimS nameValue = "" then "Unknown" else jsTrimS nameValue,
    assessmentDate := now,
    metrics := collectFormData form }

/-- Observable outcome of one `saveToMongoDB` call: the tracked assessment
id afterwards, the remote request issued (if any), the local-cache write,
the user-visible messages and the console log lines. -/
structure SaveResult where
  currentAssessmentId : Option ℕ
  request : Option RemoteReq
  localCache : Option LocalData
  messages : List Msg
  logs : List String
  deriving DecidableEq, Repr

/-- `saveToMongoDB()`: skip the remote write when unauthenticated (local
save only); otherwise update when an assessment id is bound and create
when not, binding the returned id on a successful create; the `catch`
block turns any remote failure into an error message, a local save and a
"saved locally" notice — it never rethrows, so the model is total. -/
def saveToMongoDB (authed : Bool) (curId : Option ℕ) (nameValue : String)
    (form : String → String) (now : String)
    (remote : RemoteReq → Except String ℕ) : SaveResult :=
  if authed = false then
    { currentAssessmentId := curId, request := none,
      localCache := some (localDataOf nameValue form), messages := [],
      logs := ["Not authenticated, saving to localStorage only"] }
  else
    let data := payloadOf nameValue form now
    match curId with
    | some id =>
      match remote (.update id data) with
      | .ok _ =>
        { currentAssessmentId := some id, request := some (.update id data),
          localCache := some (localDataOf nameValue form),
          messages := [.success "Assessment updated successfully"], logs := [] }
      | .error e =>
        { currentAssessmentId := some id, request := some (.update id data),
          localCache := some (localDataOf nameValue form),
          messages := [.error ("Could not save to database: " ++ e),
                       .success "Saved locally (offline mode)"],
          logs := ["MongoDB save error:"] }
    | none =>
      match remote (.create data) with
      | .ok newId =>
        { currentAssessmentId := some newId, request := some (.create data),
          localCache := some (localDataOf nameValue form),
          messages := [.success "Assessment saved to database"], logs := [] }
      | .error e =>
        { currentAssessmentId := none, request := some (.create data),
          localCache := some (localDataOf nameValue form),
          messages := [.error ("Could not save to database: " ++ e),
                       .success "Saved locally (offline mode)"],
          logs := ["MongoDB save error:"] }

/-! ## Clearing state (`clearAll` and `newAssessment`) -/

/-- The client-side state touched by `clearAll`/`newAssessment`: the
tracked assessment id, the number inputs, the subject name, and the
`performanceAssessment` localStorage item. -/
structure AppState where
  currentAssessmentId : Option ℕ
  formValues : String → String
  employeeName : String
  localCache : Option LocalData

/-- `clearAll()`: zero every number input, blank the name, and remove the
`performanceAssessment` item from localStorage.  The tracked assessment
id is not touched here. -/
def clearAll (st : AppState) : AppState :=
  { currentAssessmentId := st.currentAssessmentId,
    formValues := fun _ => "0",
    employeeName := "",
    localCache := none }

/-- `newAssessment()`: drop the tracked assessment id, then `clearAll()`. -/
def newAssessment (st : AppState) : AppState :=
  clearAll { st with currentAssessmentId := none }

/-! ## Auxiliary definitions used by the correctness statements -/

/-- Trailing-whitespace removal, the second half of `jsTrim`. -/
def dropEndWS (l : List Char) : List Char :=
  (l.reverse.dropWhile Char.isWhitespace).reverse

/-- Newline-terminated concatenation of lines, the exact shape of the
accumulated `csvContent` string. -/
def linesOut (ls : List (List Char)) : List Char :=
  (ls.map (fun l => l ++ ['\n'])).flatten

/-- Newline-separated concatenation without a trailing newline — the shape
of the CSV text after `trim()`. -/
def nlSep : List (List Char) → List Char
  | [] => []
  | [l] => l
  | l :: b :: rest => l ++ '\n' :: nlSep (b :: rest)

/-- The characters of one exported CSV data line, `metricId,rating`. -/
def csvLines (r : String → ℤ) (ids : List String) : List (List Char) :=
  ids.map (fun id => id.data ++ ',' :: (toString (r id)).data)

/-- No two adjacent underscores. -/
def noDouble : List Char → Bool
  | [] => true
  | [_] => true
  | a :: b :: rest => !(a == '_' && b == '_') && noDouble (b :: rest)

/-! ## Generic lemmas about the string models -/

theorem splitOnChar_ne_nil (sep : Char) (l : List Char) : splitOnChar sep l ≠ [] := by
  induction l with
  | nil => simp [splitOnChar]
  | cons c cs ih =>
    simp only [splitOnChar]
    split
    · simp
    · cases h : splitOnChar sep cs with
      | nil => simp
      | cons a t => simp

theorem splitOnChar_not_mem (sep : Char) (l : List Char) (h : sep ∉ l) :
    splitOnChar sep l = [l] := by
  induction l with
  | nil => rfl
  | cons c cs ih =>
    have hc : c ≠ sep := fun hc => h (hc ▸ List.mem_cons_self c cs)
    have hcs : sep ∉ cs := fun hm => h (List.mem_cons_of_mem c hm)
    simp only [splitOnChar, if_neg (fun hh => hc hh)]
    rw [ih hcs]

theorem splitOnChar_append (sep : Char) (l r : List Char) (h : sep ∉ l) :
    splitOnChar sep (l ++ sep :: r) = l :: splitOnChar sep r := by
  induction l with
  | nil => simp [splitOnChar]
  | cons c cs ih =>
    have hc : c ≠ sep := fun hc => h (hc ▸ List.mem_cons_self c cs)
    have hcs : sep ∉ cs := fun hm => h (List.mem_cons_of_mem c hm)
    simp only [List.cons_append, splitOnChar, if_neg (fun hh => hc hh)]
    rw [show cs.append (sep :: r) = cs ++ sep :: r from rfl, ih hcs]

theorem dropWhile_of_noWS (l : List Char) (h : ∀ c ∈ l, c.isWhitespace = false) :
    l.dropWhile Char.isWhitespace = l := by
  cases l with
  | nil => rfl
  | cons c cs => simp [List.dropWhile_cons, h c (List.mem_cons_self c cs)]

theorem jsTrim_of_noWS (l : List Char) (h : ∀ c ∈ l, c.isWhitespace = false) :
    jsTrim l = l := by
  unfold jsTrim
  rw [dropWhile_of_noWS l h,
      dropWhile_of_noWS l.reverse (fun c hc => h c (List.mem_reverse.mp hc)),
      List.reverse_reverse]

theorem parseFloatQ_int (s : String) (n : ℤ) (h : parseFloatParts s = some (n, 0)) :
    parseFloatQ s = some (n : ℚ) := by
  simp [parseFloatQ, h]

/-- C1: `validateInput` (the `clampRating` of the spec) returns every
parsed number in `[0, 5]` unchanged — fractional values included —,
coerces negative numbers to 0 and numbers above 5 to 5, and returns 0 on
every non-numeric input. -/
theorem c1_clampRating (s : String) (r : ℚ) :
    (parseFloatQ s = some r →
      ((0 ≤ r → r ≤ 5 → validateInput s = r) ∧
       (r < 0 → validateInput s = 0) ∧
       (5 < r → validateInput s = 5))) ∧
    (parseFloatQ s = none → validateInput s = 0) := by
  constructor
  · intro h
    refine ⟨fun h1 h2 => ?_, fun h1 => ?_, fun h1 => ?_⟩ <;>
      simp only [validateInput, h, ratingMin, ratingMax]
    · rw [min_eq_right h2, max_eq_right h1]
    · rw [min_eq_right (le_of_lt (lt_of_lt_of_le h1 (by norm_num))),
          max_eq_left (le_of_lt h1)]
    · rw [min_eq_left (le_of_lt h1)]
      norm_num
  · intro h
    simp [validateInput, h]

/-- Witness for C1 at the inputs `"3"`, `"-2"`, `"7"` and `"abc"`. -/
theorem c1_clampRating_witness :
    validateInput "3" = 3 ∧ validateInput "-2" = 0 ∧
    validateInput "7" = 5 ∧ validateInput "abc" = 0 := by
  have h3 : parseFloatQ "3" = some 3 := by
    rw [parseFloatQ_int "3" 3 (by decide)]; norm_num
  have hm2 : parseFloatQ "-2" = some (-2) := by
    rw [parseFloatQ_int "-2" (-2) (by decide)]; norm_num
  have h7 : parseFloatQ "7" = some 7 := by
    rw [parseFloatQ_int "7" 7 (by decide)]; norm_num
  have habc : parseFloatQ "abc" = none := by
    simp [parseFloatQ, show parseFloatParts "abc" = none from by decide]
  exact ⟨((c1_clampRating "3" 3).1 h3).1 (by norm_num) (by norm_num),
         ((c1_clampRating "-2" (-2)).1 hm2).2.1 (by norm_num),
         ((c1_clampRating "7" 7).1 h7).2.2 (by norm_num),
         (c1_clampRating "abc" 0).2 habc⟩

theorem data_append (a b : String) : (a ++ b).data = a.data ++ b.data := rfl

theorem dropWhile_front_of_noWS (l x : List Char) (hl : l ≠ [])
    (h : ∀ c ∈ l, c.isWhitespace = false) :
    (l ++ x).dropWhile Char.isWhitespace = l ++ x := by
  cases l with
  | nil => exact absurd rfl hl
  | cons c cs => simp [List.dropWhile_cons, h c (List.mem_cons_self c cs)]

theorem dropEndWS_append (x y : List Char) (hy : dropEndWS y ≠ []) :
    dropEndWS (x ++ y) = x ++ dropEndWS y := by
  have hy2 : (y.reverse.dropWhile Char.isWhitespace).isEmpty = false := by
    cases h : y.reverse.dropWhile Char.isWhitespace with
    | nil => exact absurd (by simp [dropEndWS, h]) hy
    | cons a t => rfl
  unfold dropEndWS
  rw [List.reverse_append, List.dropWhile_append, if_neg (by simp [hy2]),
      List.reverse_append, List.reverse_reverse]

theorem jsTrim_eq_dropEndWS (l : List Char)
    (h : l.dropWhile Char.isWhitespace = l) : jsTrim l = dropEndWS l := by
  unfold jsTrim dropEndWS
  rw [h]

theorem nlSep_cons_ne_nil (b : List Char) (rest : List (List Char)) (hb : b ≠ []) :
    nlSep (b :: rest) ≠ [] := by
  cases rest with
  | nil => simpa [nlSep] using hb
  | cons c t =>
    simp only [nlSep]
    intro hh
    exact hb (List.append_eq_nil.mp hh).1

theorem dropEndWS_append_nl (a : List Char) (ha : ∀ c ∈ a, c.isWhitespace = false) :
    dropEndWS (a ++ ['\n']) = a := by
  unfold dropEndWS
  rw [List.reverse_append]
  have : (['\n'] : List Char).reverse = ['\n'] := rfl
  rw [this]
  have h1 : (['\n'] ++ a.reverse).dropWhile Char.isWhitespace
      = a.reverse.dropWhile Char.isWhitespace := by
    simp [List.dropWhile_cons]
  rw [h1, dropWhile_of_noWS a.reverse (fun c hc => ha c (List.mem_reverse.mp hc)),
      List.reverse_reverse]

theorem jsTrim_linesOut :
    ∀ ls : List (List Char), ls ≠ [] →
      (∀ l ∈ ls, l ≠ [] ∧ ∀ c ∈ l, c.isWhitespace = false) →
      jsTrim (linesOut ls) = nlSep ls := by
  intro ls
  induction ls with
  | nil => intro h; exact absurd rfl h
  | cons a rest ih =>
    intro _ hl
    obtain ⟨hane, haws⟩ := hl a (List.mem_cons_self a rest)
    cases rest with
    | nil =>
      have h1 : linesOut [a] = a ++ ['\n'] := by simp [linesOut]
      rw [h1, jsTrim_eq_dropEndWS _ (dropWhile_front_of_noWS a ['\n'] hane haws),
          dropEndWS_append_nl a haws]
      rfl
    | cons b t =>
      obtain ⟨hbne, _⟩ := hl b (List.mem_cons_of_mem a (List.mem_cons_self b t))
      have hrest : ∀ l ∈ b :: t, l ≠ [] ∧ ∀ c ∈ l, c.isWhitespace = false :=
        fun l hm => hl l (List.mem_cons_of_mem a hm)
      have hbws : ∀ c ∈ b, c.isWhitespace = false := (hrest b (List.mem_cons_self b t)).2
      have h1 : linesOut (a :: b :: t) = (a ++ ['\n']) ++ linesOut (b :: t) := by
        simp [linesOut]
      have hfront : (linesOut (b :: t)).dropWhile Char.isWhitespace = linesOut (b :: t) := by
        have h2 : linesOut (b :: t) = (b ++ ['\n']) ++ linesOut t := by simp [linesOut]
        rw [h2, List.append_assoc]
        exact dropWhile_front_of_noWS b _ hbne hbws
      have hihs : jsTrim (linesOut (b :: t)) = nlSep (b :: t) :=
        ih (by simp) hrest
      have hde : dropEndWS (linesOut (b :: t)) = nlSep (b :: t) := by
        rw [← jsTrim_eq_dropEndWS _ hfront]
        exact hihs
      have hdene : dropEndWS (linesOut (b :: t)) ≠ [] := by
        rw [hde]
        exact nlSep_cons_ne_nil b t hbne
      have hfrontfull : (linesOut (a :: b :: t)).dropWhile Char.isWhitespace
          = linesOut (a :: b :: t) := by
        rw [h1, List.append_assoc]
        exact dropWhile_front_of_noWS a _ hane haws
      rw [jsTrim_eq_dropEndWS _ hfrontfull, h1, dropEndWS_append _ _ hdene, hde]
      simp [nlSep]

theorem splitOnChar_nlSep :
    ∀ ls : List (List Char), ls ≠ [] → (∀ l ∈ ls, '\n' ∉ l) →
      splitOnChar '\n' (nlSep ls) = ls := by
  intro ls
  induction ls with
  | nil => intro h; exact absurd rfl h
  | cons a rest ih =>
    intro _ hl
    cases rest with
    | nil =>
      simp only [nlSep]
      exact splitOnChar_not_mem '\n' a (hl a (List.mem_cons_self a []))
    | cons b t =>
      simp only [nlSep]
      rw [splitOnChar_append '\n' a _ (hl a (List.mem_cons_self a _)),
          ih (by simp) (fun l hm => hl l (List.mem_cons_of_mem a hm))]

theorem csvBody_data (r : String → ℤ) :
    ∀ ids : List String, (csvBody r ids).data = linesOut (csvLines r ids) := by
  intro ids
  induction ids with
  | nil => rfl
  | cons id rest ih =>
    simp only [csvBody, csvLines, data_append, List.map_cons, linesOut,
      List.flatten_cons] at *
    rw [ih]
    simp [csvLines, linesOut]

theorem saveToCSVContent_data (r : String → ℤ) :
    (saveToCSVContent r).data
      = linesOut (("Categories,Ratings").data :: csvLines r validMetricIds) := by
  have h1 : ("Categories,Ratings\n" : String).data
      = ("Categories,Ratings" : String).data ++ ['\n'] := by decide
  simp only [saveToCSVContent, data_append, h1, csvBody_data, linesOut,
    List.map_cons, List.flatten_cons, List.append_assoc]
  simp

theorem headerChars_good :
    ("Categories,Ratings" : String).data ≠ [] ∧
      ∀ c ∈ ("Categories,Ratings" : String).data, c.isWhitespace = false := by
  decide

theorem metricIds_chars :
    ∀ id ∈ validMetricIds,
      id.data ≠ [] ∧ ∀ c ∈ id.data, c.isWhitespace = false ∧ c ≠ ',' := by
  decide

theorem intStr_small (v : ℤ) (h1 : 0 ≤ v) (h2 : v ≤ 5) :
    (toString v).data ≠ [] ∧
      (∀ c ∈ (toString v).data, c.isWhitespace = false ∧ c ≠ ',') ∧
      parseFloatParts (toString v) = some (v, 0) := by
  interval_cases v <;> exact (by decide)

theorem validateInput_int (v : ℤ) (h1 : 0 ≤ v) (h2 : v ≤ 5)
    (s : String) (hp : parseFloatParts s = some (v, 0)) :
    validateInput s = (v : ℚ) := by
  have hq : parseFloatQ s = some ((v : ℚ)) := parseFloatQ_int s v hp
  simp only [validateInput, hq, ratingMin, ratingMax]
  rw [min_eq_right (by exact_mod_cast h2), max_eq_right (by exact_mod_cast h1)]

theorem processRow_metric (id : String) (hid : id ∈ validMetricIds) (v : ℤ)
    (h1 : 0 ≤ v) (h2 : v ≤ 5) :
    processRow (id.data ++ ',' :: (toString v).data) = .loaded id ((v : ℚ)) := by
  obtain ⟨hne, hch⟩ := metricIds_chars id hid
  obtain ⟨vne, vch, vparse⟩ := intStr_small v h1 h2
  have hrow : ∀ c ∈ id.data ++ ',' :: (toString v).data, c.isWhitespace = false := by
    intro c hc
    rcases List.mem_append.mp hc with h | h
    · exact (hch c h).1
    · rcases List.mem_cons.mp h with h | h
      · rw [h]; decide
      · exact (vch c h).1
  have tne : id.data ++ ',' :: (toString v).data ≠ [] := by
    cases hidd : id.data with
    | nil => exact absurd hidd hne
    | cons x xs => simp [hidd]
  have hsplit : splitOnChar ',' (id.data ++ ',' :: (toString v).data)
      = [id.data, (toString v).data] := by
    rw [splitOnChar_append ',' _ _ (fun hm => (hch _ hm).2 rfl),
        splitOnChar_not_mem ',' _ (fun hm => (vch _ hm).2 rfl)]
  have heta : String.mk id.data = id := rfl
  have hveta : String.mk (toString v).data = toString v := rfl
  simp only [processRow, jsTrim_of_noWS _ hrow, if_neg tne, hsplit, List.map_cons,
    List.map_nil, jsTrim_of_noWS id.data (fun c hc => (hch c hc).1),
    jsTrim_of_noWS (toString v).data (fun c hc => (vch c hc).1),
    List.headD_cons, heta, if_pos hid]
  have hidx : ([id.data, (toString v).data] : List (List Char))[1]?
      = some (toString v).data := rfl
  rw [hidx]
  have hcell : Option.map String.mk (some (toString v).data) = some (toString v) := rfl
  rw [hcell]
  simp only [validateInputOpt]
  rw [validateInput_int v h1 h2 _ vparse]

theorem loadedRows_csvLines (r : String → ℤ) :
    ∀ ids : List String, (∀ id ∈ ids, id ∈ validMetricIds) →
      (∀ id ∈ ids, 0 ≤ r id ∧ r id ≤ 5) →
      loadedRows (csvLines r ids) = ids.map (fun id => (id, ((r id : ℚ)))) := by
  intro ids
  induction ids with
  | nil =>
    intro _ _
    rfl
  | cons id rest ih =>
    intro hin hb
    have h1 := processRow_metric id (hin id (List.mem_cons_self id rest)) (r id)
      (hb id (List.mem_cons_self id rest)).1 (hb id (List.mem_cons_self id rest)).2
    have ih2 := ih (fun x hm => hin x (List.mem_cons_of_mem id hm))
      (fun x hm => hb x (List.mem_cons_of_mem id hm))
    simp only [csvLines, List.map_cons, loadedRows, List.filterMap_cons, h1]
    simp only [csvLines, loadedRows] at ih2
    rw [ih2]

/-- C2: for every complete, valid record (all 19 metric identifiers mapped
to integers in `[0, 5]`), parsing the CSV produced by the single-record
export with the CSV import reconstructs exactly the record's metric
mapping, identifier by identifier, in configuration order. -/
theorem c2_roundtrip (r : String → ℤ)
    (h : ∀ id ∈ validMetricIds, 0 ≤ r id ∧ r id ≤ 5) :
    parseAndLoadCSV (saveToCSVContent r)
      = .ok (validMetricIds.map (fun id => (id, ((r id : ℚ))))) := by
  have hgood : ∀ l ∈ ("Categories,Ratings" : String).data :: csvLines r validMetricIds,
      l ≠ [] ∧ ∀ c ∈ l, c.isWhitespace = false := by
    intro l hl
    rcases List.mem_cons.mp hl with hl | hl
    · rw [hl]
      exact headerChars_good
    · obtain ⟨id, hid, hrow⟩ := List.mem_map.mp hl
      obtain ⟨hne, hch⟩ := metricIds_chars id hid
      obtain ⟨vne, vch, _⟩ := intStr_small (r id) (h id hid).1 (h id hid).2
      subst hrow
      constructor
      · cases hidd : id.data with
        | nil => exact absurd hidd hne
        | cons x xs => simp [hidd]
      · intro c hc
        rcases List.mem_append.mp hc with hh | hh
        · exact (hch c hh).1
        · rcases List.mem_cons.mp hh with hh | hh
          · rw [hh]; decide
          · exact (vch c hh).1
  have hnonl : ∀ l ∈ ("Categories,Ratings" : String).data :: csvLines r validMetricIds,
      '\n' ∉ l := by
    intro l hl hc
    have := (hgood l hl).2 '\n' hc
    simp at this
  have hlines : splitOnChar '\n' (jsTrim (saveToCSVContent r).data)
      = ("Categories,Ratings" : String).data :: csvLines r validMetricIds := by
    rw [saveToCSVContent_data, jsTrim_linesOut _ (by simp) hgood,
        splitOnChar_nlSep _ (by simp) hnonl]
  have hlen : (("Categories,Ratings" : String).data :: csvLines r validMetricIds).length
      = 20 := by
    simp [csvLines]
    rfl
  have hhead : headerOK
      (("Categories,Ratings" : String).data :: csvLines r validMetricIds) = true := by
    simp only [headerOK, List.headD_cons]
    decide
  simp only [parseAndLoadCSV, hlines, hlen, hhead]
  rw [if_neg (by omega), if_pos trivial, List.drop_one, List.tail_cons,
      loadedRows_csvLines r validMetricIds (fun x hx => hx) h]
  rw [if_neg (by rw [List.length_map]; decide)]

/-- Witness for C2 at the constant record mapping every metric to 3. -/
theorem c2_roundtrip_witness :
    parseAndLoadCSV (saveToCSVContent (fun _ => 3))
      = .ok (validMetricIds.map (fun id => (id, ((3 : ℤ) : ℚ)))) :=
  c2_roundtrip (fun _ => 3) (by decide)

theorem validateInput_bounds (s : String) :
    0 ≤ validateInput s ∧ validateInput s ≤ 5 := by
  unfold validateInput
  cases parseFloatQ s with
  | none => norm_num
  | some q =>
    simp only [ratingMin, ratingMax]
    constructor
    · exact le_max_left 0 _
    · exact max_le (by norm_num) (min_le_left 5 q)

theorem validateInputOpt_bounds (x : Option String) :
    0 ≤ validateInputOpt x ∧ validateInputOpt x ≤ 5 := by
  cases x with
  | none => simp [validateInputOpt]
  | some s => exact validateInput_bounds s

/-- C4 counterexample: the CSV text `"Foo,Bar"` has a header containing
neither token, yet the import fails with the empty-or-invalid error (the
two-line check precedes the header check), not with the header-validation
error the claim promises. -/
theorem c4_import_counterexample :
    parseAndLoadCSV "Foo,Bar" = .error .emptyOrInvalid ∧
    parseAndLoadCSV "Foo,Bar" ≠ .error .invalidFormat := by
  constructor
  · rfl
  · intro hc
    rw [show parseAndLoadCSV "Foo,Bar" = .error .emptyOrInvalid from rfl] at hc
    injection hc with h
    exact ImportError.noConfusion h

/-- C4 (amended): the import fails with the empty-or-invalid error whenever
the trimmed CSV has fewer than two lines — even when the header also lacks
the required tokens; with at least two lines, a header lacking a
case-insensitive `categories` or `ratings` token fails with the
header-validation error regardless of the content rows; rows whose first
column is not a recognized metric identifier contribute nothing and are
counted as one warning each; every loaded row's value is produced by the
`validateInput` clamp and so lies in `[0, 5]`; and after a valid header
the import fails with the no-valid-data error exactly when zero rows were
recognized. -/
theorem c4_import_amended (csv : String) :
    ((splitOnChar '\n' (jsTrim csv.data)).length < 2 →
       parseAndLoadCSV csv = .error .emptyOrInvalid) ∧
    (2 ≤ (splitOnChar '\n' (jsTrim csv.data)).length →
       (headerOK (splitOnChar '\n' (jsTrim csv.data)) = false →
          parseAndLoadCSV csv = .error .invalidFormat) ∧
       (headerOK (splitOnChar '\n' (jsTrim csv.data)) = true →
          (loadedRows ((splitOnChar '\n' (jsTrim csv.data)).drop 1) = [] ↔
             parseAndLoadCSV csv = .error .noValidData) ∧
          (loadedRows ((splitOnChar '\n' (jsTrim csv.data)).drop 1) ≠ [] →
             parseAndLoadCSV csv
               = .ok (loadedRows ((splitOnChar '\n' (jsTrim csv.data)).drop 1))))) ∧
    (∀ line c, processRow line = .unknown c →
       c ∉ validMetricIds ∧ loadedRows [line] = [] ∧ warningsCount [line] = 1) ∧
    (∀ line c v, processRow line = .loaded c v →
       c ∈ validMetricIds ∧ 0 ≤ v ∧ v ≤ 5 ∧
       ∃ cell, v = validateInputOpt cell) := by
  have hdrop : ∀ l : List (List Char), List.drop 1 l = l.tail := fun l => List.drop_one l
  refine ⟨?_, ?_, ?_, ?_⟩
  · intro hlt
    simp only [parseAndLoadCSV, if_pos hlt]
  · intro hge
    have hnlt : ¬ ((splitOnChar '\n' (jsTrim csv.data)).length < 2) := by omega
    constructor
    · intro hbad
      simp only [parseAndLoadCSV, hbad, if_neg hnlt]
      simp
    · intro hok
      constructor
      · constructor
        · intro hempty
          simp only [parseAndLoadCSV, hok, if_neg hnlt, if_pos trivial, hempty]
          simp
        · intro hres
          simp only [parseAndLoadCSV, hok, if_neg hnlt, if_pos trivial] at hres
          by_cases hempty :
              loadedRows ((splitOnChar '\n' (jsTrim csv.data)).drop 1) = []
          · exact hempty
          · rw [if_neg (by simpa [List.length_eq_zero] using hempty)] at hres
            exact absurd hres (by simp)
      · intro hne
        simp only [parseAndLoadCSV, hok, if_neg hnlt, if_pos trivial,
          if_neg (show ¬ ((loadedRows ((splitOnChar '\n' (jsTrim csv.data)).drop 1)).length = 0) from
            by simpa [List.length_eq_zero] using hne)]
  · intro line c h
    simp only [processRow] at h
    refine ⟨?_, ?_, ?_⟩
    · split at h
      · exact absurd h (by simp)
      · split at h
        · exact absurd h (by simp)
        · next hnotmem =>
          injection h with hc
          rw [← hc]
          exact hnotmem
    · simp [loadedRows, processRow] at h ⊢
      simp [h]
    · simp [warningsCount, processRow] at h ⊢
      simp [h]
  · intro line c v h
    simp only [processRow] at h
    have hmem_val : c ∈ validMetricIds ∧ ∃ cell, v = validateInputOpt cell := by
      split at h
      · exact absurd h (by simp)
      · split at h
        · next hmem =>
          injection h with hc hv
          rw [← hc]
          exact ⟨hmem, _, hv.symm⟩
        · exact absurd h (by simp)
    obtain ⟨hmem, cell, hv⟩ := hmem_val
    refine ⟨hmem, ?_, ?_, cell, hv⟩
    · rw [hv]
      exact (validateInputOpt_bounds cell).1
    · rw [hv]
      exact (validateInputOpt_bounds cell).2

/-- Witness for the amended C4 at a CSV with one recognized row and one
unrecognized row. -/
theorem c4_import_amended_witness :
    parseAndLoadCSV "Categories,Ratings\nsharedVision,4\nbogus,9"
      = .ok (loadedRows ((splitOnChar '\n'
          (jsTrim ("Categories,Ratings\nsharedVision,4\nbogus,9" : String).data)).drop 1)) :=
  (((c4_import_amended "Categories,Ratings\nsharedVision,4\nbogus,9").2.1
      (by decide)).2 (by decide)).2 (by decide)

/-- C3: for every complete record with all 19 ratings in `[0, 5]`, each
per-theme average lies in `[0, 5]`, and the overall average equals the
arithmetic mean of all 19 per-metric ratings — the sum of all ratings
divided by 19, equivalently the size-weighted combination of the four
per-theme averages, not their plain mean. -/
theorem c3_computeAverages (m : Metrics)
    (h : ∀ v ∈ objectValuesMetrics m, 0 ≤ v ∧ v ≤ 5) :
    (0 ≤ (calculateThemeAverages m).strategicVision ∧
       (calculateThemeAverages m).strategicVision ≤ 5) ∧
    (0 ≤ (calculateThemeAverages m).focusAndEngagement ∧
       (calculateThemeAverages m).focusAndEngagement ≤ 5) ∧
    (0 ≤ (calculateThemeAverages m).autonomyAndChange ∧
       (calculateThemeAverages m).autonomyAndChange ≤ 5) ∧
    (0 ≤ (calculateThemeAverages m).stakeholdersAndTeam ∧
       (calculateThemeAverages m).stakeholdersAndTeam ≤ 5) ∧
    calculateOverallAverage m =
      (m.sharedVision + m.strategy + m.businessAlignment + m.customerFocus +
       m.crossFunctionalTeams + m.clarityInPriorities + m.acceptanceCriteria +
       m.enablingFocus + m.engagement +
       m.feedback + m.enablingAutonomy + m.changeAndAmbiguity +
       m.desiredCulture + m.workAutonomously +
       m.stakeholders + m.teamAttrition + m.teams + m.developingPeople +
       m.subordinatesForSuccess) / 19 ∧
    calculateOverallAverage m =
      (4 * (calculateThemeAverages m).strategicVision +
       5 * (calculateThemeAverages m).focusAndEngagement +
       5 * (calculateThemeAverages m).autonomyAndChange +
       5 * (calculateThemeAverages m).stakeholdersAndTeam) / 19 := by
  simp only [objectValuesMetrics, List.mem_cons, List.not_mem_nil, or_false,
    forall_eq_or_imp, forall_eq] at h
  obtain ⟨h1, h2, h3, h4, h5, h6, h7, h8, h9, h10, h11, h12, h13, h14, h15,
    h16, h17, h18, h19⟩ := h
  have hover : calculateOverallAverage m =
      (m.sharedVision + m.strategy + m.businessAlignment + m.customerFocus +
       m.crossFunctionalTeams + m.clarityInPriorities + m.acceptanceCriteria +
       m.enablingFocus + m.engagement +
       m.feedback + m.enablingAutonomy + m.changeAndAmbiguity +
       m.desiredCulture + m.workAutonomously +
       m.stakeholders + m.teamAttrition + m.teams + m.developingPeople +
       m.subordinatesForSuccess) / 19 := by
    simp only [calculateOverallAverage, objectValuesMetrics, List.foldl_cons,
      List.foldl_nil, List.length_cons, List.length_nil]
    norm_num
  refine ⟨⟨?_, ?_⟩, ⟨?_, ?_⟩, ⟨?_, ?_⟩, ⟨?_, ?_⟩, hover, ?_⟩ <;>
    simp only [calculateThemeAverages, hover]
  · linarith [h1.1, h2.1, h3.1, h4.1]
  · linarith [h1.2, h2.2, h3.2, h4.2]
  · linarith [h5.1, h6.1, h7.1, h8.1, h9.1]
  · linarith [h5.2, h6.2, h7.2, h8.2, h9.2]
  · linarith [h10.1, h11.1, h12.1, h13.1, h14.1]
  · linarith [h10.2, h11.2, h12.2, h13.2, h14.2]
  · linarith [h15.1, h16.1, h17.1, h18.1, h19.1]
  · linarith [h15.2, h16.2, h17.2, h18.2, h19.2]
  · ring

/-- Witness for C3 at the all-threes record: every average is exactly 3. -/
theorem c3_computeAverages_witness :
    calculateOverallAverage
        { sharedVision := 3, strategy := 3, businessAlignment := 3,
          customerFocus := 3, crossFunctionalTeams := 3,
          clarityInPriorities := 3, acceptanceCriteria := 3,
          enablingFocus := 3, engagement := 3, feedback := 3,
          enablingAutonomy := 3, changeAndAmbiguity := 3,
          desiredCulture := 3, workAutonomously := 3, stakeholders := 3,
          teamAttrition := 3, teams := 3, developingPeople := 3,
          subordinatesForSuccess := 3 } = 3 := by
  have h := (c3_computeAverages
    { sharedVision := 3, strategy := 3, businessAlignment := 3,
      customerFocus := 3, crossFunctionalTeams := 3,
      clarityInPriorities := 3, acceptanceCriteria := 3,
      enablingFocus := 3, engagement := 3, feedback := 3,
      enablingAutonomy := 3, changeAndAmbiguity := 3,
      desiredCulture := 3, workAutonomously := 3, stakeholders := 3,
      teamAttrition := 3, teams := 3, developingPeople := 3,
      subordinatesForSuccess := 3 }
    (by intro v hv; simp [objectValuesMetrics] at hv; rw [hv]; norm_num)).2.2.2.2.1
  rw [h]
  norm_num

/-- C5: at the server persistence boundary an invalid rating — missing,
non-integer, below 0 or above 5 — makes `validateAssessment` reject the
request outright (no clamping: the submission is refused, not altered),
the `missingMetrics` list of the CSV import contains exactly the required
identifiers absent from the submitted mapping, and the import's per-row
check likewise rejects out-of-range ratings instead of clamping them. -/
theorem c5_server_validation :
    (∀ m : String → Option ℚ,
       (∃ id ∈ requiredMetrics, isValidServerRating (m id) = false) →
         validateAssessmentMetrics m = .error (validateAssessmentMetricErrors m) ∧
         validateAssessmentMetricErrors m ≠ []) ∧
    (∀ m : String → Option ℚ,
       validateAssessmentMetrics m = .ok m ↔
         ∀ id ∈ requiredMetrics, isValidServerRating (m id) = true) ∧
    (∀ (m : String → Option ℤ) (id : String),
       id ∈ missingMetricsOf m ↔ id ∈ requiredMetrics ∧ m id = none) ∧
    (∀ (s : String) (v : ℤ), parseIntJS s = some v → (v < 0 ∨ 5 < v) →
       csvRowRating s = none) := by
  refine ⟨?_, ?_, ?_, ?_⟩
  · intro m ⟨id, hid, hbad⟩
    have hne : validateAssessmentMetricErrors m ≠ [] := by
      intro hnil
      have : id ∈ validateAssessmentMetricErrors m := by
        simp only [validateAssessmentMetricErrors, List.mem_filter]
        exact ⟨hid, by simp [hbad]⟩
      rw [hnil] at this
      exact absurd this (List.not_mem_nil id)
    exact ⟨by simp only [validateAssessmentMetrics, if_neg hne], hne⟩
  · intro m
    constructor
    · intro hok id hid
      by_cases hv : isValidServerRating (m id) = true
      · exact hv
      · exfalso
        have hmem : id ∈ validateAssessmentMetricErrors m := by
          simp only [validateAssessmentMetricErrors, List.mem_filter]
          exact ⟨hid, by simp [Bool.eq_false_iff.mpr hv]⟩
        simp only [validateAssessmentMetrics] at hok
        split at hok
        · next hnil =>
          rw [hnil] at hmem
          exact absurd hmem (List.not_mem_nil id)
        · exact absurd hok (by simp)
    · intro hall
      have hnil : validateAssessmentMetricErrors m = [] := by
        simp only [validateAssessmentMetricErrors, List.filter_eq_nil_iff]
        intro id hid
        simp [hall id hid]
      simp only [validateAssessmentMetrics, if_pos hnil]
  · intro m id
    simp only [missingMetricsOf, List.mem_filter, Option.isNone_iff_eq_none,
      decide_eq_true_eq]
  · intro s v hp hout
    simp only [csvRowRating, hp, if_pos hout]

/-- Witness for C5: omitting exactly `feedback` and `teams` (all other
metrics 3) is rejected, the missing list is exactly those two
identifiers, and the import row check rejects the out-of-range rating 7. -/
theorem c5_server_validation_witness :
    validateAssessmentMetrics
        (fun id => if id = "feedback" ∨ id = "teams" then none else some 3)
      = .error (validateAssessmentMetricErrors
          (fun id => if id = "feedback" ∨ id = "teams" then none else some 3)) ∧
    ("feedback" ∈ missingMetricsOf
        (fun id => if id = "feedback" ∨ id = "teams" then none else some 3) ∧
     "teams" ∈ missingMetricsOf
        (fun id => if id = "feedback" ∨ id = "teams" then none else some 3)) ∧
    missingMetricsOf
        (fun id => if id = "feedback" ∨ id = "teams" then none else some 3)
      = ["feedback", "teams"] ∧
    csvRowRating "7" = none := by
  refine ⟨?_, ⟨?_, ?_⟩, ?_, ?_⟩
  · exact (c5_server_validation.1
      (fun id => if id = "feedback" ∨ id = "teams" then none else some 3)
      ⟨"feedback", by decide, by decide⟩).1
  · exact (c5_server_validation.2.2.1
      (fun id => if id = "feedback" ∨ id = "teams" then none else some 3)
      "feedback").mpr ⟨by decide, by simp⟩
  · exact (c5_server_validation.2.2.1
      (fun id => if id = "feedback" ∨ id = "teams" then none else some 3)
      "teams").mpr ⟨by decide, by simp⟩
  · decide
  · exact c5_server_validation.2.2.2 "7" 7 (by decide) (by decide)

/-- C6: on autosave with authentication, the sync policy issues a create
when no assessment id is bound and an update against the bound id when
one is, sending the full collected metric mapping (0 for any metric
whose input parses to nothing) and the trimmed subject name with the
`"Unknown"` default; after a successful create the returned id becomes
the bound id for subsequent writes. -/
theorem c6_autosave_sync (curId : Option ℕ) (nameValue : String)
    (form : String → String) (now : String)
    (remote : RemoteReq → Except String ℕ) :
    (∀ nid, curId = none →
       remote (.create (payloadOf nameValue form now)) = .ok nid →
       saveToMongoDB true curId nameValue form now remote =
         { currentAssessmentId := some nid,
           request := some (.create (payloadOf nameValue form now)),
           localCache := some (localDataOf nameValue form),
           messages := [.success "Assessment saved to database"],
           logs := [] }) ∧
    (∀ id k, curId = some id →
       remote (.update id (payloadOf nameValue form now)) = .ok k →
       saveToMongoDB true curId nameValue form now remote =
         { currentAssessmentId := some id,
           request := some (.update id (payloadOf nameValue form now)),
           localCache := some (localDataOf nameValue form),
           messages := [.success "Assessment updated successfully"],
           logs := [] }) ∧
    (jsTrimS nameValue = "" →
       (payloadOf nameValue form now).employeeName = "Unknown") ∧
    (jsTrimS nameValue ≠ "" →
       (payloadOf nameValue form now).employeeName = jsTrimS nameValue) ∧
    (∀ mid ∈ validMetricIds,
       (mid, ((parseIntJS (form mid)).getD 0)) ∈ (payloadOf nameValue form now).metrics) ∧
    (∀ mid ∈ validMetricIds, form mid = "" →
       (mid, (0 : ℤ)) ∈ (payloadOf nameValue form now).metrics) := by
  refine ⟨?_, ?_, ?_, ?_, ?_, ?_⟩
  · intro nid hcur hok
    subst hcur
    simp only [saveToMongoDB, hok]
    simp
  · intro id k hcur hok
    subst hcur
    simp only [saveToMongoDB, hok]
    simp
  · intro hblank
    simp only [payloadOf, if_pos hblank]
  · intro hblank
    simp only [payloadOf, if_neg hblank]
  · intro mid hmid
    simp only [payloadOf, collectFormData]
    exact List.mem_map.mpr ⟨mid, hmid, rfl⟩
  · intro mid hmid hempty
    simp only [payloadOf, collectFormData]
    refine List.mem_map.mpr ⟨mid, hmid, ?_⟩
    rw [hempty]
    rfl

/-- Witness for C6: an unbound session with blank name and empty inputs,
where the remote create succeeds with id 7, ends bound to id 7. -/
theorem c6_autosave_sync_witness :
    saveToMongoDB true none "" (fun _ => "") "2026-01-01"
        (fun _ => .ok 7) =
      { currentAssessmentId := some 7,
        request := some (.create (payloadOf "" (fun _ => "") "2026-01-01")),
        localCache := some (localDataOf "" (fun _ => "")),
        messages := [.success "Assessment saved to database"],
        logs := [] } :=
  (c6_autosave_sync none "" (fun _ => "") "2026-01-01" (fun _ => .ok 7)).1
    7 rfl rfl

/-- C7 counterexample: with no authentication bound (an
authentication-absence failure to reach the remote store) the autosave
falls back to the local cache but raises no user-visible notification at
all — the claimed degraded-mode notification does not happen on this
failure path. -/
theorem c7_offline_counterexample :
    (saveToMongoDB false none "x" (fun _ => "2") "2026-01-01"
        (fun _ => .error "network")).messages = [] ∧
    (saveToMongoDB false none "x" (fun _ => "2") "2026-01-01"
        (fun _ => .error "network")).localCache
      = some (localDataOf "x" (fun _ => "2")) := by
  constructor
  · rfl
  · rfl

/-- C7 (amended): when authenticated and the remote write fails (network
or server error), the sync policy writes the full current state to the
local cache, surfaces the degraded-mode error notification exactly once
(followed by a saved-locally notice), leaves the bound identity unchanged
so the next edit retries through the normal path, and issues exactly the
one failed request — no retry, no escaping exception (the model is a
total function: every run yields a `SaveResult`); when authentication is
absent, the state is cached and nothing is retried, but only a console
line is produced — no user-visible notification. -/
theorem c7_offline_fallback (curId : Option ℕ) (nameValue : String)
    (form : String → String) (now : String)
    (remote : RemoteReq → Except String ℕ) :
    (∀ e, curId = none →
       remote (.create (payloadOf nameValue form now)) = .error e →
       saveToMongoDB true curId nameValue form now remote =
         { currentAssessmentId := none,
           request := some (.create (payloadOf nameValue form now)),
           localCache := some (localDataOf nameValue form),
           messages := [.error ("Could not save to database: " ++ e),
                        .success "Saved locally (offline mode)"],
           logs := ["MongoDB save error:"] }) ∧
    (∀ id e, curId = some id →
       remote (.update id (payloadOf nameValue form now)) = .error e →
       saveToMongoDB true curId nameValue form now remote =
         { currentAssessmentId := some id,
           request := some (.update id (payloadOf nameValue form now)),
           localCache := some (localDataOf nameValue form),
           messages := [.error ("Could not save to database: " ++ e),
                        .success "Saved locally (offline mode)"],
           logs := ["MongoDB save error:"] }) ∧
    (saveToMongoDB false curId nameValue form now remote =
       { currentAssessmentId := curId, request := none,
         localCache := some (localDataOf nameValue form),
         messages := [],
         logs := ["Not authenticated, saving to localStorage only"] }) ∧
    (∀ authed,
       ((saveToMongoDB authed curId nameValue form now remote).messages.countP
          (fun msg => match msg with | .error _ => true | _ => false)) ≤ 1) ∧
    (∀ authed,
       (saveToMongoDB authed curId nameValue form now remote).localCache
         = some (localDataOf nameValue form)) := by
  refine ⟨?_, ?_, ?_, ?_, ?_⟩
  · intro e hcur herr
    subst hcur
    simp only [saveToMongoDB, herr]
    simp
  · intro id e hcur herr
    subst hcur
    simp only [saveToMongoDB, herr]
    simp
  · simp only [saveToMongoDB]
    simp
  · intro authed
    cases authed with
    | false => simp [saveToMongoDB]
    | true =>
      cases curId with
      | none =>
        simp only [saveToMongoDB]
        cases remote (.create (payloadOf nameValue form now)) with
        | ok nid => simp
        | error e => simp [List.countP_cons]
      | some id =>
        simp only [saveToMongoDB]
        cases remote (.update id (payloadOf nameValue form now)) with
        | ok k => simp
        | error e => simp [List.countP_cons]
  · intro authed
    cases authed with
    | false => simp [saveToMongoDB]
    | true =>
      cases curId with
      | none =>
        simp only [saveToMongoDB]
        cases remote (.create (payloadOf nameValue form now)) with
        | ok nid => simp
        | error e => simp
      | some id =>
        simp only [saveToMongoDB]
        cases remote (.update id (payloadOf nameValue form now)) with
        | ok k => simp
        | error e => simp

/-- Witness for the amended C7: an authenticated unbound session whose
remote create fails with a network error caches locally, notifies once,
and stays unbound. -/
theorem c7_offline_fallback_witness :
    saveToMongoDB true none "x" (fun _ => "2") "2026-01-01"
        (fun _ => .error "network") =
      { currentAssessmentId := none,
        request := some (.create (payloadOf "x" (fun _ => "2") "2026-01-01")),
        localCache := some (localDataOf "x" (fun _ => "2")),
        messages := [.error "Could not save to database: network",
                     .success "Saved locally (offline mode)"],
        logs := ["MongoDB save error:"] } :=
  (c7_offline_fallback none "x" (fun _ => "2") "2026-01-01"
      (fun _ => .error "network")).1 "network" rfl rfl

theorem collapseUnderscores_cons :
    ∀ (rest : List Char) (b : Char), ∃ t, collapseUnderscores (b :: rest) = b :: t := by
  intro rest
  induction rest with
  | nil => intro b; exact ⟨[], rfl⟩
  | cons c t ih =>
    intro b
    simp only [collapseUnderscores]
    by_cases h : b = '_' ∧ c = '_'
    · rw [if_pos h]
      obtain ⟨t2, ht⟩ := ih c
      exact ⟨t2, by rw [ht, h.1, h.2]⟩
    · rw [if_neg h]
      exact ⟨collapseUnderscores (c :: t), rfl⟩

theorem noDouble_collapseUnderscores :
    ∀ l : List Char, noDouble (collapseUnderscores l) = true := by
  intro l
  induction l with
  | nil => rfl
  | cons a rest ih =>
    cases rest with
    | nil => rfl
    | cons b t =>
      simp only [collapseUnderscores]
      by_cases h : a = '_' ∧ b = '_'
      · rw [if_pos h]
        exact ih
      · rw [if_neg h]
        obtain ⟨t2, ht⟩ := collapseUnderscores_cons t b
        rw [ht]
        have h2 : noDouble (b :: t2) = true := by
          rw [← ht]
          exact ih
        simp only [noDouble, Bool.and_eq_true, Bool.not_eq_true']
        refine ⟨?_, h2⟩
        rw [Bool.and_eq_false_iff]
        rcases not_and_or.mp h with h | h
        · exact Or.inl (beq_eq_false_iff_ne.mpr h)
        · exact Or.inr (beq_eq_false_iff_ne.mpr h)

theorem mem_collapseUnderscores :
    ∀ (l : List Char) (x : Char), x ∈ collapseUnderscores l → x ∈ l := by
  intro l
  induction l with
  | nil => intro x h; exact absurd h (List.not_mem_nil x)
  | cons a rest ih =>
    cases rest with
    | nil => intro x h; exact h
    | cons b t =>
      intro x h
      simp only [collapseUnderscores] at h
      by_cases hc : a = '_' ∧ b = '_'
      · rw [if_pos hc] at h
        exact List.mem_cons_of_mem a (ih x h)
      · rw [if_neg hc] at h
        rcases List.mem_cons.mp h with h | h
        · rw [h]
          exact List.mem_cons_self a _
        · exact List.mem_cons_of_mem a (ih x h)

theorem noDouble_take :
    ∀ (l : List Char) (n : ℕ), noDouble l = true → noDouble (l.take n) = true := by
  intro l
  induction l with
  | nil => intro n _; rw [List.take_nil]; rfl
  | cons a rest ih =>
    intro n h
    cases n with
    | zero => rfl
    | succ k =>
      cases rest with
      | nil =>
        rw [List.take_succ_cons, List.take_nil]
        rfl
      | cons b t =>
        have hparts := (Bool.and_eq_true _ _).mp h
        cases k with
        | zero => rfl
        | succ j =>
          have h2 : noDouble ((b :: t).take (j + 1)) = true := ih (j + 1) hparts.2
          rw [List.take_succ_cons, List.take_succ_cons]
          rw [List.take_succ_cons] at h2
          simp only [noDouble, Bool.and_eq_true]
          exact ⟨hparts.1, h2⟩

theorem replaceChar_ok (c : Char) : isFilenameChar (replaceChar c) = true := by
  unfold replaceChar
  split
  · next h => exact h
  · decide

/-- C8 counterexample: for the subject name `"a "` (trailing space) the
exported filename is `a_assessment_….csv` — the source trims the name
before replacing characters — while the claimed sanitization (replace,
collapse, truncate, with no trim step) would map the space to an
underscore and yield `a__assessment_….csv`. -/
theorem c8_filename_counterexample :
    csvFilename "a " "2026-10-12" = "a_assessment_2026-10-12.csv" ∧
    csvFilename "a " "2026-10-12"
      ≠ sanitizeFilenameSpec "a " ++ "_assessment_" ++ "2026-10-12" ++ ".csv" := by
  constructor
  · rfl
  · decide

/-- C8 (amended): the single-record export filename is
`sanitize(s)_assessment_{date}.csv` with `"user"` for an empty name,
where sanitize first trims leading and trailing whitespace, then replaces
every character outside `[A-Za-z0-9_-]` with `_`, collapses runs of two
or more underscores into one, and truncates to 50 characters; the result
therefore has length at most 50, contains only characters of the allowed
class, and never contains two adjacent underscores. -/
theorem c8_filename_amended (s d : String) :
    csvFilename s d
      = (if s = "" then "user" else sanitizeFilename s) ++ "_assessment_" ++ d ++ ".csv" ∧
    sanitizeFilename s
      = String.mk ((collapseUnderscores ((jsTrim s.data).map replaceChar)).take 50) ∧
    (sanitizeFilename s).data.length ≤ 50 ∧
    (∀ c ∈ (sanitizeFilename s).data, isFilenameChar c = true) ∧
    noDouble (sanitizeFilename s).data = true := by
  refine ⟨rfl, rfl, ?_, ?_, ?_⟩
  · simp only [sanitizeFilename, List.length_take]
    omega
  · intro c hc
    simp only [sanitizeFilename] at hc
    have h1 : c ∈ collapseUnderscores ((jsTrim s.data).map replaceChar) :=
      List.take_subset 50 _ hc
    obtain ⟨c0, _, hc0⟩ := List.mem_map.mp (mem_collapseUnderscores _ c h1)
    rw [← hc0]
    exact replaceChar_ok c0
  · exact noDouble_take _ 50 (noDouble_collapseUnderscores _)

/-- Witness for the amended C8 at the name `"a!!b"`: the sanitized result
contains the kept character and carries no double underscore. -/
theorem c8_filename_amended_witness :
    isFilenameChar 'a' = true ∧ noDouble (sanitizeFilename "a!!b").data = true :=
  ⟨(c8_filename_amended "a!!b" "d").2.2.2.1 'a' (by decide),
   (c8_filename_amended "a!!b" "d").2.2.2.2⟩

/-- C9: an owner-scoped `updateAssessment` call changes exactly the
supplied fields — each absent field keeps its previous value, the owner
identity never changes, every other stored record is untouched — and a
lookup that finds no record with that id owned by the caller yields the
not-found error. -/
theorem c9_partial_update (store : AssessmentStore) (uid id : ℕ) (u : UpdateFields) :
    (∀ a, findOneOwned store id uid = some a →
       ∃ store2,
         updateAssessment store uid id u = .ok (store2, applyUpdateFields a u) ∧
         (applyUpdateFields a u).userId = a.userId ∧
         (u.employeeName = none →
            (applyUpdateFields a u).employeeName = a.employeeName) ∧
         (∀ n, u.employeeName = some n → (applyUpdateFields a u).employeeName = n) ∧
         (u.assessmentDate = none →
            (applyUpdateFields a u).assessmentDate = a.assessmentDate) ∧
         (∀ dt, u.assessmentDate = some dt →
            (applyUpdateFields a u).assessmentDate = dt) ∧
         (u.metrics = none → (applyUpdateFields a u).metrics = a.metrics) ∧
         (∀ ms, u.metrics = some ms → (applyUpdateFields a u).metrics = ms) ∧
         (∀ e ∈ store, e.1 ≠ id → e ∈ store2)) ∧
    (findOneOwned store id uid = none →
       updateAssessment store uid id u = .error "Assessment not found") := by
  constructor
  · intro a ha
    refine ⟨store.map (fun e =>
        if e.1 == id && e.2.userId == uid then (e.1, applyUpdateFields a u) else e),
      ?_, rfl, ?_, ?_, ?_, ?_, ?_, ?_, ?_⟩
    · simp only [updateAssessment, ha]
    · intro hn
      simp [applyUpdateFields, hn]
    · intro n hn
      simp [applyUpdateFields, hn]
    · intro hn
      simp [applyUpdateFields, hn]
    · intro dt hn
      simp [applyUpdateFields, hn]
    · intro hn
      simp [applyUpdateFields, hn]
    · intro ms hn
      simp [applyUpdateFields, hn]
    · intro e he hne
      refine List.mem_map.mpr ⟨e, he, ?_⟩
      rw [if_neg]
      simp only [Bool.and_eq_true, beq_iff_eq]
      intro hcond
      exact hne hcond.1
  · intro h
    simp only [updateAssessment, h]

/-- Witness for C9: updating only the subject name of an owned record
changes that name, keeps the date and metrics, and the same call by a
non-owner is rejected as not found. -/
theorem c9_partial_update_witness :
    (applyUpdateFields
        { userId := 5, employeeName := "Old", assessmentDate := "2026-01-01",
          metrics := [("teams", 2)] }
        { employeeName := some "New", assessmentDate := none,
          metrics := none }).employeeName = "New" ∧
    (applyUpdateFields
        { userId := 5, employeeName := "Old", assessmentDate := "2026-01-01",
          metrics := [("teams", 2)] }
        { employeeName := some "New", assessmentDate := none,
          metrics := none }).assessmentDate = "2026-01-01" ∧
    (applyUpdateFields
        { userId := 5, employeeName := "Old", assessmentDate := "2026-01-01",
          metrics := [("teams", 2)] }
        { employeeName := some "New", assessmentDate := none,
          metrics := none }).metrics = [("teams", 2)] ∧
    updateAssessment
        [(1, { userId := 5, employeeName := "Old",
               assessmentDate := "2026-01-01", metrics := [("teams", 2)] })]
        4 1
        { employeeName := some "New", assessmentDate := none, metrics := none }
      = .error "Assessment not found" := by
  obtain ⟨store2, _, _, _, hsome, hdnone, _, hmnone, _, _⟩ :=
    (c9_partial_update
      [(1, { userId := 5, employeeName := "Old",
             assessmentDate := "2026-01-01", metrics := [("teams", 2)] })]
      5 1
      { employeeName := some "New", assessmentDate := none, metrics := none }).1
      { userId := 5, employeeName := "Old", assessmentDate := "2026-01-01",
        metrics := [("teams", 2)] }
      (by decide)
  refine ⟨hsome "New" rfl, hdnone rfl, hmnone rfl, ?_⟩
  exact (c9_partial_update
      [(1, { userId := 5, employeeName := "Old",
             assessmentDate := "2026-01-01", metrics := [("teams", 2)] })]
      4 1
      { employeeName := some "New", assessmentDate := none, metrics := none }).2
    (by decide)

/-- C10 (implicit): starting a new assessment clears the bound identity,
resets every rating input to 0, blanks the subject name, and also deletes
the persisted `performanceAssessment` item, so the previously cached
in-progress record is no longer recoverable from the local cache; the
plain clear-all operation deletes the cached item as well. -/
theorem c10_newAssessment_clears_cache (st : AppState) :
    (newAssessment st).currentAssessmentId = none ∧
    (∀ id, (newAssessment st).formValues id = "0") ∧
    (newAssessment st).employeeName = "" ∧
    (newAssessment st).localCache = none ∧
    (clearAll st).localCache = none :=
  ⟨rfl, fun _ => rfl, rfl, rfl, rfl⟩
